import Mathlib

/-!
Verification development for the behavior-tree execution engine in
src/src/state.rs: the immutable Behavior tree, the mutable execution
cursor (State), cursor construction (State::new) and the step algorithm
(State::event / State::tick).

Modelling conventions:
- f64 time values are modelled as exact rationals (ℚ); the f64::MAX
  sentinel used by the After arm is the exact rational value of f64::MAX.
- The Rust step algorithm can loop forever (e.g. While over a body child
  that succeeds instantly without consuming time), so every recursive
  entry point takes a fuel argument and returns none when fuel runs out.
  A none result also models a Rust panic (indexing an absent first child
  of an empty composite while rebuilding a cursor).
- The FnMut action callback is modelled as a pure function threading an
  explicit callback-environment value of type σ alongside the optional
  action-local state slot.
- The Rust match in State::event scrutinises the pair (upd, self); here
  the cursor is scrutinised first and the Wait arm scrutinises upd
  inside. The unmatched combinations of the Rust default arm, namely a
  non-time event reaching WaitState and any event reaching
  WaitForeverState, are spelled out as the corresponding arms returning
  (Running, 0) with the cursor unchanged, which is the same function.
-/

namespace Bonsai

/-- Tri-state outcome of a step, from the Status enum of the crate. -/
inductive Status : Type
  | Running
  | Success
  | Failure
deriving DecidableEq, Repr

/-- Immutable behavior-tree definition, from the Behavior enum of the crate. -/
inductive Behavior (A : Type) : Type
  | Action (a : A)
  | Fail (b : Behavior A)
  | AlwaysSucceed (b : Behavior A)
  | Wait (dt : ℚ)
  | WaitForever
  | If (condition success failure : Behavior A)
  | Select (l : List (Behavior A))
  | Sequence (l : List (Behavior A))
  | While (condition : Behavior A) (body : List (Behavior A))
  | WhenAll (l : List (Behavior A))
  | WhenAny (l : List (Behavior A))
  | After (l : List (Behavior A))

/-- Mutable execution cursor, from the State enum in src/src/state.rs. -/
inductive State (A S : Type) : Type
  | ActionState (a : A) (s : Option S)
  | FailState (c : State A S)
  | AlwaysSucceedState (c : State A S)
  | WaitState (total elapsed : ℚ)
  | WaitForeverState
  | IfState (success failure : Behavior A) (status : Status) (c : State A S)
  | SelectState (seq : List (Behavior A)) (i : ℕ) (c : State A S)
  | SequenceState (seq : List (Behavior A)) (i : ℕ) (c : State A S)
  | WhileState (ev : State A S) (rep : List (Behavior A)) (i : ℕ) (c : State A S)
  | WhenAllState (cs : List (Option (State A S)))
  | WhenAnyState (cs : List (Option (State A S)))
  | AfterState (i : ℕ) (cs : List (State A S))

/-- Modelled from the spec: the event bridge (crate::event, not under src/).
An event either carries a leftover-time value (a time-carrying update
event) or is a discrete event carrying no time. -/
inductive Event : Type
  | Update (dt : ℚ)
  | Other
deriving DecidableEq, Repr

/-- Modelled from the spec: extract-optional-leftover-time(event), the
e.update(..) extraction at the top of State::event; absent means the
event is discrete. -/
def Event.upd : Event → Option ℚ
  | .Update dt => some dt
  | .Other => none

/-- Modelled from the spec: derive-event-with-leftover-time(templateEvent,
newDt), the UpdateEvent::from_dt operation; produces an event of the same
(time-carrying) kind carrying the new leftover value. -/
def Event.fromDt (dt : ℚ) (_e : Event) : Event := .Update dt

/-- Modelled from the spec: make-time-event(dt), the UpdateArgs { dt }
conversion used by the root tick entry point. -/
def makeTimeEvent (dt : ℚ) : Event := .Update dt

/-- The event fed to a nested cursor: a derived event carrying the given
leftover time if the original event carried time, or the original event
if it was discrete.  This is the shared match upd pattern of the If,
While and Sequence/Select arms. -/
def deriveEvent (upd : Option ℚ) (rdt : ℚ) (e : Event) : Event :=
  match upd with
  | some _ => Event.fromDt rdt e
  | none => e

/-- The arguments in the action callback, from struct ActionArgs. -/
structure ActionArgs (A S : Type) where
  event : Event
  dt : ℚ
  action : A
  state : Option S

/-- The host action callback: receives its mutable environment and the
ActionArgs, returns (Status, leftover dt), the updated action-local state
slot and the updated environment. -/
def Callback (A S σ : Type) : Type :=
  σ → ActionArgs A S → (Status × ℚ) × Option S × σ

/-- Exact rational value of f64::MAX, the initial minimum used by the
After arm. -/
def f64MAX : ℚ := (2 ^ 53 - 1) * 2 ^ 971

/-- Result of one step: (Status, leftover dt), the updated cursor and
the updated callback environment. -/
abbrev StepRes (A S σ : Type) : Type := (Status × ℚ) × State A S × σ

/-- A one-fuel-level advancement function for nested cursors. -/
abbrev EvtFun (A S σ : Type) : Type := State A S → Event → σ → Option (StepRes A S σ)

mutual

/-- Cursor construction, from State::new.  The accesses of the first
child of Select, Sequence and the While body (sel[0], seq[0], rep[0] in
the Rust source) are embedded as Option-returning indexing: an empty
children list yields none where the Rust code would panic. -/
def State.new {A S : Type} : Behavior A → Option (State A S)
  | .Action a => some (.ActionState a none)
  | .Fail b => (State.new b).map .FailState
  | .AlwaysSucceed b => (State.new b).map .AlwaysSucceedState
  | .Wait d => some (.WaitState d 0)
  | .WaitForever => some .WaitForeverState
  | .If c s f => (State.new c).map (fun st => .IfState s f .Running st)
  | .Select [] => none
  | .Select (b :: bs) => (State.new b).map (fun st => .SelectState (b :: bs) 0 st)
  | .Sequence [] => none
  | .Sequence (b :: bs) => (State.new b).map (fun st => .SequenceState (b :: bs) 0 st)
  | .While _ [] => none
  | .While c (b :: bs) =>
      match State.new c, State.new b with
      | some cc, some st => some (.WhileState cc (b :: bs) 0 st)
      | _, _ => none
  | .WhenAll l => (State.newList l).map (fun cs => .WhenAllState (cs.map some))
  | .WhenAny l => (State.newList l).map (fun cs => .WhenAnyState (cs.map some))
  | .After l => (State.newList l).map (.AfterState 0)

/-- Cursor construction mapped over a children list, from the
into_iter().map(State::new) calls of the WhenAll, WhenAny and After arms
of State::new. -/
def State.newList {A S : Type} : List (Behavior A) → Option (List (State A S))
  | [] => some []
  | b :: bs =>
      match State.new b, State.newList bs with
      | some s, some ss => some (s :: ss)
      | _, _ => none

end

/-- The After arm loop of State::event: advances every child from index
j to the end with the event, tracking the frontier i and the running
minimum leftover.  Returns (early result if the loop returned, updated
frontier, updated minimum, updated children from j on, environment). -/
def afterLoop {A S σ : Type} (evt : EvtFun A S σ) (e : Event) :
    ℕ → ℚ → ℕ → List (State A S) → σ →
    Option (Option (Status × ℚ) × ℕ × ℚ × List (State A S) × σ)
  | i, minDt, _, [], g => some (none, i, minDt, [], g)
  | i, minDt, j, c :: cs, g =>
    match evt c e g with
    | none => none
    | some ((.Running, _), c', g') =>
        match afterLoop evt e i 0 (j + 1) cs g' with
        | none => none
        | some (r, i', m', cs', g'') => some (r, i', m', c' :: cs', g'')
    | some ((.Success, ndt), c', g') =>
        if i = j ∧ ndt < minDt then
          match afterLoop evt e (i + 1) ndt (j + 1) cs g' with
          | none => none
          | some (r, i', m', cs', g'') => some (r, i', m', c' :: cs', g'')
        else some (some (.Failure, min minDt ndt), i, minDt, c' :: cs, g')
    | some ((.Failure, ndt), c', g') => some (some (.Failure, ndt), i, minDt, c' :: cs, g')

/-- The While arm body loop of State::event: advances the current body
child with the leftover-adjusted event; Failure returns (Failure, dt),
Running breaks out returning the RUNNING constant (Running, 0), Success
on a discrete event returns (Running, 0), Success on a time event
advances the index (wrapping past the end), rebuilds the cursor from the
next body child and loops with the new leftover. -/
def whileLoop {A S σ : Type} (evt : EvtFun A S σ) (newF : Behavior A → Option (State A S))
    (upd : Option ℚ) (e : Event) (rep : List (Behavior A)) :
    ℕ → ℕ → State A S → ℚ → σ → Option ((Status × ℚ) × ℕ × State A S × σ)
  | budget, i, cur, rdt, g =>
    match evt cur (deriveEvent upd rdt e) g with
    | none => none
    | some ((.Failure, x), cur', g') => some ((.Failure, x), i, cur', g')
    | some ((.Running, _), cur', g') => some ((.Running, 0), i, cur', g')
    | some ((.Success, ndt), cur', g') =>
        match upd with
        | none => some ((.Running, 0), i, cur', g')
        | some _ =>
          let iNext := if i + 1 ≥ rep.length then 0 else i + 1
          match rep[iNext]? with
          | none => none
          | some b =>
            match newF b with
            | none => none
            | some cur2 =>
              match budget with
              | 0 => none
              | m + 1 => whileLoop evt newF upd e rep m iNext cur2 ndt g'

/-- Modelled from the spec: the shared Select/Sequence algorithm
(crate::sequence::sequence, not under src/), following section 4.2 of
the spec.  Select short-circuits on the first child Success and fails
when the children are exhausted; Sequence short-circuits on the first
child Failure and succeeds when exhausted (the behavioral glosses of the
spec).  A Running child returns Running with its dt; a continue-status
terminal on a discrete event consumes the event and returns (Running, 0)
after rebuilding the next child; on a time event the next child is
advanced in the same step with the leftover dt. -/
def sequence {A S σ : Type} (evt : EvtFun A S σ) (newF : Behavior A → Option (State A S))
    (select : Bool) (upd : Option ℚ) (e : Event) (seq : List (Behavior A)) :
    ℕ → ℕ → State A S → ℚ → σ → Option ((Status × ℚ) × ℕ × State A S × σ)
  | budget, i, cur, rdt, g =>
    match evt cur (deriveEvent upd rdt e) g with
    | none => none
    | some ((.Running, dt), cur', g') => some ((.Running, dt), i, cur', g')
    | some ((st, dt), cur', g') =>
      if st = (if select then Status.Success else Status.Failure) then
        some ((st, dt), i, cur', g')
      else
        if i + 1 ≥ seq.length then some ((st, dt), i, cur', g')
        else
          match seq[i + 1]? with
          | none => none
          | some b =>
            match newF b with
            | none => none
            | some cur2 =>
              match upd with
              | none => some ((.Running, 0), i + 1, cur2, g')
              | some _ =>
                match budget with
                | 0 => none
                | m + 1 => sequence evt newF select upd e seq m (i + 1) cur2 dt g'

/-- Modelled from the spec: the shared WhenAll/WhenAny algorithm
(crate::when_all::when_all, not under src/), following section 4.2 of
the spec.  Advances every still-present slot; a shortCircuit result
returns immediately leaving later slots untouched; a settle result
clears the slot and records its dt into the running minimum. -/
def whenAllLoop {A S σ : Type} (evt : EvtFun A S σ) (shortC settle : Status) (e : Event) :
    List (Option (State A S)) → σ →
    Option (Option (Status × ℚ) × Option ℚ × List (Option (State A S)) × σ)
  | [], g => some (none, none, [], g)
  | none :: rest, g =>
      match whenAllLoop evt shortC settle e rest g with
      | none => none
      | some (r, m, l, g') => some (r, m, none :: l, g')
  | some c :: rest, g =>
      match evt c e g with
      | none => none
      | some ((st, dt), c', g') =>
        if st = shortC then some (some (st, dt), none, some c' :: rest, g')
        else if st = settle then
          match whenAllLoop evt shortC settle e rest g' with
          | none => none
          | some (r, m, l, g'') =>
              some (r, some (match m with | none => dt | some mv => min mv dt), none :: l, g'')
        else
          match whenAllLoop evt shortC settle e rest g' with
          | none => none
          | some (r, m, l, g'') => some (r, m, some c' :: l, g'')

/-- The step algorithm, from State::event.  Dispatches on the cursor
variant; the fuel argument bounds the recursion depth and the number of
loop iterations, with none meaning fuel ran out (or a rebuild panicked on
an empty composite). -/
def State.event {A S σ : Type} (f : Callback A S σ) :
    ℕ → State A S → Event → σ → Option (StepRes A S σ)
  | 0, _, _, _ => none
  | fuel + 1, s, e, g =>
    let upd := e.upd
    let evt : EvtFun A S σ := fun s' e' g' => State.event f fuel s' e' g'
    match s with
    | .ActionState a st =>
        let r := f g ⟨e, upd.getD 0, a, st⟩
        some (r.1, .ActionState a r.2.1, r.2.2)
    | .FailState cur =>
        match evt cur e g with
        | none => none
        | some ((.Running, dt), cur', g') => some ((.Running, dt), .FailState cur', g')
        | some ((.Failure, dt), cur', g') => some ((.Success, dt), .FailState cur', g')
        | some ((.Success, dt), cur', g') => some ((.Failure, dt), .FailState cur', g')
    | .AlwaysSucceedState cur =>
        match evt cur e g with
        | none => none
        | some ((.Running, dt), cur', g') => some ((.Running, dt), .AlwaysSucceedState cur', g')
        | some ((_, dt), cur', g') => some ((.Success, dt), .AlwaysSucceedState cur', g')
    | .WaitState waitT t =>
        match upd with
        | some dt =>
            if t + dt ≥ waitT then some ((.Success, t + dt - waitT), .WaitState waitT waitT, g)
            else some ((.Running, 0), .WaitState waitT (t + dt), g)
        | none => some ((.Running, 0), .WaitState waitT t, g)
    | .IfState succ failb status cur =>
        match status with
        | .Running =>
          match evt cur e g with
          | none => none
          | some ((.Running, dt), cur', g') =>
              some ((.Running, dt), .IfState succ failb .Running cur', g')
          | some ((.Success, dt), _, g') =>
              match State.new succ with
              | none => none
              | some ns =>
                match evt ns (deriveEvent upd dt e) g' with
                | none => none
                | some (r, ns', g2) => some (r, .IfState succ failb .Success ns', g2)
          | some ((.Failure, dt), _, g') =>
              match State.new failb with
              | none => none
              | some ns =>
                match evt ns (deriveEvent upd dt e) g' with
                | none => none
                | some (r, ns', g2) => some (r, .IfState succ failb .Failure ns', g2)
        | _ =>
          match evt cur (deriveEvent upd (upd.getD 0) e) g with
          | none => none
          | some (r, cur', g') => some (r, .IfState succ failb status cur', g')
    | .SelectState seq i cur =>
        match sequence evt State.new true upd e seq fuel i cur (upd.getD 0) g with
        | none => none
        | some (r, i', cur', g') => some (r, .SelectState seq i' cur', g')
    | .SequenceState seq i cur =>
        match sequence evt State.new false upd e seq fuel i cur (upd.getD 0) g with
        | none => none
        | some (r, i', cur', g') => some (r, .SequenceState seq i' cur', g')
    | .WhileState evc rep i cur =>
        match evt evc e g with
        | none => none
        | some ((.Running, _), evc', g') =>
            match whileLoop evt State.new upd e rep fuel i cur (upd.getD 0) g' with
            | none => none
            | some (r, i', cur', g2) => some (r, .WhileState evc' rep i' cur', g2)
        | some ((st, dt), evc', g') => some ((st, dt), .WhileState evc' rep i cur, g')
    | .WhenAllState cursors =>
        match whenAllLoop evt .Failure .Success e cursors g with
        | none => none
        | some (some r, _, slots, g') => some (r, .WhenAllState slots, g')
        | some (none, m, slots, g') =>
            if slots.all (·.isNone) then some ((.Success, m.getD f64MAX), .WhenAllState slots, g')
            else some ((.Running, 0), .WhenAllState slots, g')
    | .WhenAnyState cursors =>
        match whenAllLoop evt .Success .Failure e cursors g with
        | none => none
        | some (some r, _, slots, g') => some (r, .WhenAnyState slots, g')
        | some (none, m, slots, g') =>
            if slots.all (·.isNone) then some ((.Failure, m.getD f64MAX), .WhenAnyState slots, g')
            else some ((.Running, 0), .WhenAnyState slots, g')
    | .AfterState i cursors =>
        match afterLoop evt e i f64MAX i (List.drop i cursors) g with
        | none => none
        | some (some r, i', _, rest2, g') =>
            some (r, .AfterState i' (List.take i cursors ++ rest2), g')
        | some (none, i', minDt, rest2, g') =>
            if i' = cursors.length then
              some ((.Success, minDt), .AfterState i' (List.take i cursors ++ rest2), g')
            else some ((.Running, 0), .AfterState i' (List.take i cursors ++ rest2), g')
    | .WaitForeverState => some ((.Running, 0), .WaitForeverState, g)

/-- The root entry point, from State::tick: builds a time-carrying event
from the raw dt and feeds it to State::event.  The Rust tick returns unit,
so only the mutated cursor and callback environment survive; the
(Status, leftover) pair of the inner event call is discarded. -/
def State.tick {A S σ : Type} (f : Callback A S σ) (fuel : ℕ) (s : State A S) (dt : ℚ)
    (g : σ) : Option (State A S × σ) :=
  (State.event f fuel s (makeTimeEvent dt) g).map (fun r => r.2)

/-- Follows the words of the spec for claim C1: the root entry point as
the spec describes it, step(cursor, make-time-event(dt), callback),
returning the full (Status, leftoverTime) result of the step. -/
def tickSpec {A S σ : Type} (f : Callback A S σ) (fuel : ℕ) (s : State A S) (dt : ℚ)
    (g : σ) : Option (StepRes A S σ) :=
  State.event f fuel s (makeTimeEvent dt) g

/-- Status inversion performed by the FailState arm. -/
def flipStatus : Status → Status
  | .Running => .Running
  | .Success => .Failure
  | .Failure => .Success

/-- Status mapping performed by the AlwaysSucceedState arm. -/
def asStatus : Status → Status
  | .Running => .Running
  | _ => .Success

/-- The non-empty-composite precondition of the spec: every Select,
Sequence and While-body children list in the tree is non-empty. -/
inductive Behavior.wfComposites {A : Type} : Behavior A → Prop
  | action (a : A) : Behavior.wfComposites (.Action a)
  | fail {b : Behavior A} : Behavior.wfComposites b → Behavior.wfComposites (.Fail b)
  | alwaysSucceed {b : Behavior A} :
      Behavior.wfComposites b → Behavior.wfComposites (.AlwaysSucceed b)
  | wait (d : ℚ) : Behavior.wfComposites (.Wait d)
  | waitForever : Behavior.wfComposites .WaitForever
  | ifb {c s f : Behavior A} : Behavior.wfComposites c → Behavior.wfComposites s →
      Behavior.wfComposites f → Behavior.wfComposites (.If c s f)
  | select {l : List (Behavior A)} : l ≠ [] → (∀ b ∈ l, Behavior.wfComposites b) →
      Behavior.wfComposites (.Select l)
  | seq {l : List (Behavior A)} : l ≠ [] → (∀ b ∈ l, Behavior.wfComposites b) →
      Behavior.wfComposites (.Sequence l)
  | whileb {c : Behavior A} {l : List (Behavior A)} : Behavior.wfComposites c → l ≠ [] →
      (∀ b ∈ l, Behavior.wfComposites b) → Behavior.wfComposites (.While c l)
  | whenAll {l : List (Behavior A)} : (∀ b ∈ l, Behavior.wfComposites b) →
      Behavior.wfComposites (.WhenAll l)
  | whenAny {l : List (Behavior A)} : (∀ b ∈ l, Behavior.wfComposites b) →
      Behavior.wfComposites (.WhenAny l)
  | after {l : List (Behavior A)} : (∀ b ∈ l, Behavior.wfComposites b) →
      Behavior.wfComposites (.After l)

/-- A callback over trivial payload and environment types that returns
the given status and leftover, leaving the slot and environment
unchanged; used to instantiate hypotheses at concrete inputs. -/
def cbConst (st : Status) (q : ℚ) : Callback Unit Unit Unit :=
  fun g a => ((st, q), a.state, g)

/-- A callback that echoes the incoming dt back as the leftover with a
Failure status; its step result pair depends on the incoming dt while
the cursor and environment it produces do not. -/
def cbEchoFail : Callback Unit Unit Unit :=
  fun g a => ((.Failure, a.dt), a.state, g)

/-- Claim C1, counterexample: tick is not equivalent to the full
step(cursor, make-time-event(dt), callback) operation as a returner of
the (Status, leftoverTime) pair, because the Rust tick returns unit.
Two tick calls on the same Action cursor with dt = 1 and dt = 2 return
identical values, while the corresponding step calls return different
(Status, leftoverTime) pairs — so no reading of the tick result can be
the pair that step returns. -/
theorem C1_counterexample :
    State.tick cbEchoFail 1 (.ActionState () none) 1 ()
      = State.tick cbEchoFail 1 (.ActionState () none) 2 ()
    ∧ State.event cbEchoFail 1 (.ActionState () none) (makeTimeEvent 1) ()
      ≠ State.event cbEchoFail 1 (.ActionState () none) (makeTimeEvent 2) () := by
  refine ⟨rfl, fun h => ?_⟩
  have h2 := congrArg
    (fun o : Option (StepRes Unit Unit Unit) => (o.map (fun r => r.1.2)).getD 0) h
  norm_num [State.event, makeTimeEvent, Event.upd, cbEchoFail] at h2

/-- Claim C1, amended: tick(cursor, dt, callback) performs exactly the
state update of step(cursor, make-time-event(dt), callback) — the spec
version of the root entry point — but returns only the updated cursor
and callback environment, discarding the (Status, leftoverTime) pair. -/
theorem C1_tick_refines {A S σ : Type} (f : Callback A S σ) (fuel : ℕ) (s : State A S)
    (dt : ℚ) (g : σ) :
    State.tick f fuel s dt g = (tickSpec f fuel s dt g).map (fun r => r.2)
    ∧ tickSpec f fuel s dt g = State.event f fuel s (.Update dt) g :=
  ⟨rfl, rfl⟩

/-- Claim C3: a Wait cursor fed a time-carrying event with delta dt sets
elapsed to total and returns (Success, elapsed + dt − total) when
elapsed + dt ≥ total, and otherwise adds dt to elapsed and returns
(Running, 0); in particular Wait(5) fed dt = 2 then dt = 3 returns
(Running, 0) then (Success, 0), and fresh Wait(5) fed dt = 7 returns
(Success, 2). -/
theorem C3_wait_semantics (k : ℕ) {A S σ : Type} (f : Callback A S σ) (total t dt : ℚ)
    (g : σ) :
    (State.event f (k + 1) (.WaitState total t) (.Update dt) g =
      if t + dt ≥ total then some ((.Success, t + dt - total), .WaitState total total, g)
      else some ((.Running, 0), .WaitState total (t + dt), g))
    ∧ State.event f 1 (.WaitState 5 0) (.Update 2) g = some ((.Running, 0), .WaitState 5 2, g)
    ∧ State.event f 1 (.WaitState 5 2) (.Update 3) g = some ((.Success, 0), .WaitState 5 5, g)
    ∧ State.event f 1 (.WaitState 5 0) (.Update 7) g = some ((.Success, 2), .WaitState 5 5, g) := by
  refine ⟨?_, ?_, ?_, ?_⟩
  · simp [State.event, Event.upd]
  · norm_num [State.event, Event.upd]
  · norm_num [State.event, Event.upd]
  · norm_num [State.event, Event.upd]

/-- Claim C8: the combinations the step algorithm does not explicitly
handle — a discrete (non-time) event reaching a Wait cursor, and any
event reaching WaitForever — return (Running, 0) without modifying the
cursor or the callback environment. -/
theorem C8_default_running (k : ℕ) {A S σ : Type} (f : Callback A S σ) (total t : ℚ)
    (g : σ) :
    State.event f (k + 1) (.WaitState total t) .Other g
      = some ((.Running, 0), .WaitState total t, g)
    ∧ ∀ e : Event, State.event f (k + 1) .WaitForeverState e g
      = some ((.Running, 0), .WaitForeverState, g) := by
  constructor
  · simp [State.event, Event.upd]
  · intro e
    simp [State.event]

/-- Claim C2, counterexample: with the condition Running, a body child
whose step returns (Running, 5) does not have its leftover passed
through — the While node returns (Running, 0), not (Running, 5). -/
theorem C2_counterexample :
    (State.event (cbConst .Running 5) 2
        (.WhileState .WaitForeverState [.WaitForever] 0 (.ActionState () none))
        (.Update 1) ()).map (fun r => r.1) = some (.Running, 0)
    ∧ (State.event (cbConst .Running 5) 1 (.ActionState () none) (.Update 1) ()).map
        (fun r => r.1) = some (.Running, 5)
    ∧ (Status.Running, (0 : ℚ)) ≠ (Status.Running, 5) := by
  refine ⟨rfl, rfl, ?_⟩
  intro h
  have h2 := congrArg Prod.snd h
  norm_num at h2

/-- Claim C2, amended: for a While cursor whose condition returns
Running, a body child step returning Failure with leftover dt makes the
While node return (Failure, dt) immediately, passing the leftover
through; a body child step returning Running makes the While node exit
its loop and return (Running, 0), discarding the body child leftover. -/
theorem C2_while_body_results {A S σ : Type} (f : Callback A S σ) (k : ℕ)
    (cond : State A S) (rep : List (Behavior A)) (i : ℕ) (cur : State A S) (e : Event)
    (g : σ) (d : ℚ) (cond' : State A S) (g₁ : σ)
    (hc : State.event f k cond e g = some ((.Running, d), cond', g₁)) :
    (∀ dt cur' g₂, State.event f k cur (deriveEvent e.upd (e.upd.getD 0) e) g₁
        = some ((.Failure, dt), cur', g₂) →
      State.event f (k + 1) (.WhileState cond rep i cur) e g
        = some ((.Failure, dt), .WhileState cond' rep i cur', g₂))
    ∧ (∀ dt cur' g₂, State.event f k cur (deriveEvent e.upd (e.upd.getD 0) e) g₁
        = some ((.Running, dt), cur', g₂) →
      State.event f (k + 1) (.WhileState cond rep i cur) e g
        = some ((.Running, 0), .WhileState cond' rep i cur', g₂)) := by
  constructor <;> intro dt cur' g₂ hb <;>
    simp only [State.event, whileLoop, hc, hb]

/-- Claim C2, witness for the amended theorem: a concrete While cursor
with an always-Running condition; with a body child failing with
leftover 7 the node returns (Failure, 7); with a body child running the
node returns (Running, 0). -/
theorem C2_witness :
    State.event (cbConst .Failure 7) 2
        (.WhileState .WaitForeverState [.WaitForever] 0 (.ActionState () none)) (.Update 1) ()
      = some ((.Failure, 7),
          .WhileState .WaitForeverState [.WaitForever] 0 (.ActionState () none), ())
    ∧ State.event (cbConst .Running 9) 2
        (.WhileState .WaitForeverState [.WaitForever] 0 (.ActionState () none)) (.Update 1) ()
      = some ((.Running, 0),
          .WhileState .WaitForeverState [.WaitForever] 0 (.ActionState () none), ()) := by
  constructor
  · exact (C2_while_body_results (cbConst .Failure 7) 1 .WaitForeverState [.WaitForever] 0
      (.ActionState () none) (.Update 1) () 0 .WaitForeverState () rfl).1 7
      (.ActionState () none) () rfl
  · exact (C2_while_body_results (cbConst .Running 9) 1 .WaitForeverState [.WaitForever] 0
      (.ActionState () none) (.Update 1) () 0 .WaitForeverState () rfl).2 9
      (.ActionState () none) () rfl

/-- Claim C6: a While cursor advances its condition cursor first with
the incoming event, and a non-Running condition result (status and
leftover dt) is returned immediately, without advancing the body child
cursor in that step. -/
theorem C6_while_condition_preempts {A S σ : Type} (f : Callback A S σ) (k : ℕ)
    (cond : State A S) (rep : List (Behavior A)) (i : ℕ) (cur : State A S) (e : Event)
    (g g' : σ) (st : Status) (dt : ℚ) (cond' : State A S)
    (hc : State.event f k cond e g = some ((st, dt), cond', g'))
    (hst : st ≠ .Running) :
    State.event f (k + 1) (.WhileState cond rep i cur) e g
      = some ((st, dt), .WhileState cond' rep i cur, g') := by
  cases st with
  | Running => exact absurd rfl hst
  | Success => simp only [State.event, hc]
  | Failure => simp only [State.event, hc]

/-- Claim C6, witness: a concrete While cursor whose condition is an
Action terminating with (Success, 3); the While node returns
(Success, 3) with the body cursor untouched. -/
theorem C6_witness :
    State.event (cbConst .Success 3) 2
        (.WhileState (.ActionState () none) [] 0 .WaitForeverState) .Other ()
      = some ((.Success, 3), .WhileState (.ActionState () none) [] 0 .WaitForeverState, ()) :=
  C6_while_condition_preempts (cbConst .Success 3) 1 (.ActionState () none) [] 0
    .WaitForeverState .Other () () .Success 3 (.ActionState () none) rfl (by decide)

/-- Claim C7: Fail maps a child Success to Failure and Failure to
Success, passes Running through, and always passes the leftover dt
through unchanged; Fail(Fail(X)) produces the same (Status, dt) pair as
X when X terminates with Success or Failure, and
AlwaysSucceed(AlwaysSucceed(X)) produces the same (Status, dt) pair as
AlwaysSucceed(X). -/
theorem C7_fail_always_succeed {A S σ : Type} (f : Callback A S σ) (k : ℕ) (X : State A S)
    (e : Event) (g : σ) (st : Status) (dt : ℚ) (X' : State A S) (g' : σ)
    (h : State.event f k X e g = some ((st, dt), X', g')) :
    State.event f (k + 1) (.FailState X) e g = some ((flipStatus st, dt), .FailState X', g')
    ∧ ((st = .Success ∨ st = .Failure) →
        (State.event f (k + 2) (.FailState (.FailState X)) e g).map (fun r => r.1)
          = some (st, dt))
    ∧ (State.event f (k + 1) (.AlwaysSucceedState X) e g).map (fun r => r.1)
        = some (asStatus st, dt)
    ∧ (State.event f (k + 2) (.AlwaysSucceedState (.AlwaysSucceedState X)) e g).map
        (fun r => r.1) = some (asStatus st, dt) := by
  refine ⟨?_, ?_, ?_, ?_⟩
  · cases st <;> simp only [State.event, h, flipStatus]
  · intro hor
    cases st with
    | Running => rcases hor with h2 | h2 <;> exact Status.noConfusion h2
    | Success => simp only [State.event, h, Option.map_some']
    | Failure => simp only [State.event, h, Option.map_some']
  · cases st <;> simp only [State.event, h, asStatus, Option.map_some']
  · cases st <;> simp only [State.event, h, asStatus, Option.map_some']

/-- Claim C7, witness: an Action child terminating with (Success, 3)
under the Fail and AlwaysSucceed wrappers. -/
theorem C7_witness :
    State.event (cbConst .Success 3) 2 (.FailState (.ActionState () none)) .Other ()
      = some ((.Failure, 3), .FailState (.ActionState () none), ())
    ∧ (State.event (cbConst .Success 3) 3
        (.FailState (.FailState (.ActionState () none))) .Other ()).map (fun r => r.1)
      = some (.Success, 3)
    ∧ (State.event (cbConst .Success 3) 2
        (.AlwaysSucceedState (.ActionState () none)) .Other ()).map (fun r => r.1)
      = some (.Success, 3)
    ∧ (State.event (cbConst .Success 3) 3
        (.AlwaysSucceedState (.AlwaysSucceedState (.ActionState () none))) .Other ()).map
        (fun r => r.1) = some (.Success, 3) := by
  have hx := C7_fail_always_succeed (cbConst .Success 3) 1 (.ActionState () none) .Other ()
    .Success 3 (.ActionState () none) () rfl
  exact ⟨hx.1, hx.2.1 (Or.inl rfl), hx.2.2.1, hx.2.2.2⟩

/-- Claim C10: the phase flag of an If cursor is frozen once it is not
Running — a step on such a cursor keeps the phase, skips the condition
(which has been replaced by the branch cursor), and only advances the
branch cursor with the derived (leftover-carrying) event when the
original event carried time, or the original event when discrete. -/
theorem C10_if_phase_frozen {A S σ : Type} (f : Callback A S σ) (k : ℕ)
    (succ failb : Behavior A) (st : Status) (c : State A S) (e : Event) (g : σ)
    (h : st ≠ .Running) :
    State.event f (k + 1) (.IfState succ failb st c) e g
      = (State.event f k c (deriveEvent e.upd (e.upd.getD 0) e) g).map
          (fun r => (r.1, .IfState succ failb st r.2.1, r.2.2)) := by
  cases st with
  | Running => exact absurd rfl h
  | Success =>
      simp only [State.event]
      cases hres : State.event f k c (deriveEvent e.upd (e.upd.getD 0) e) g with
      | none => simp
      | some r => obtain ⟨p, c', g2⟩ := r; simp
  | Failure =>
      simp only [State.event]
      cases hres : State.event f k c (deriveEvent e.upd (e.upd.getD 0) e) g with
      | none => simp
      | some r => obtain ⟨p, c', g2⟩ := r; simp

/-- Claim C10, witness: an If cursor whose phase is already Success and
whose branch cursor is an Action; the phase stays Success and only the
branch cursor result is returned. -/
theorem C10_witness :
    Status.Success ≠ Status.Running
    ∧ State.event (cbConst .Running 4) 2
        (.IfState (.Action ()) (.Action ()) .Success (.ActionState () none)) .Other ()
      = (State.event (cbConst .Running 4) 1 (.ActionState () none)
          (deriveEvent (Event.upd .Other) ((Event.upd .Other).getD 0) .Other) ()).map
          (fun r => (r.1, .IfState (.Action ()) (.Action ()) .Success r.2.1, r.2.2)) :=
  ⟨by decide, C10_if_phase_frozen (cbConst .Running 4) 1 (.Action ()) (.Action ())
    .Success (.ActionState () none) .Other () (by decide)⟩

/-- Claim C4: for an If cursor in phase Running, a Running condition
result is returned immediately as (Running, dt); a Success (resp.
Failure) condition result rebuilds the nested cursor from the success
(resp. failure) branch subtree, sets the phase accordingly, and in the
same step advances the new branch cursor — with a derived event carrying
the condition leftover dt if the original event carried time, or the
original event if discrete — returning that result directly. -/
theorem C4_if_running_branches {A S σ : Type} (f : Callback A S σ) (k : ℕ)
    (succ failb : Behavior A) (c : State A S) (e : Event) (g : σ) :
    (∀ dt c' g', State.event f k c e g = some ((.Running, dt), c', g') →
      State.event f (k + 1) (.IfState succ failb .Running c) e g
        = some ((.Running, dt), .IfState succ failb .Running c', g'))
    ∧ (∀ dt c0 g' ns r ns' g2,
        State.event f k c e g = some ((.Success, dt), c0, g') →
        State.new succ = some ns →
        State.event f k ns (deriveEvent e.upd dt e) g' = some (r, ns', g2) →
        State.event f (k + 1) (.IfState succ failb .Running c) e g
          = some (r, .IfState succ failb .Success ns', g2))
    ∧ (∀ dt c0 g' ns r ns' g2,
        State.event f k c e g = some ((.Failure, dt), c0, g') →
        State.new failb = some ns →
        State.event f k ns (deriveEvent e.upd dt e) g' = some (r, ns', g2) →
        State.event f (k + 1) (.IfState succ failb .Running c) e g
          = some (r, .IfState succ failb .Failure ns', g2)) := by
  refine ⟨?_, ?_, ?_⟩
  · intro dt c' g' h
    simp only [State.event, h]
  · intro dt c0 g' ns r ns' g2 h hnew hbr
    simp only [State.event, h, hnew, hbr]
  · intro dt c0 g' ns r ns' g2 h hnew hbr
    simp only [State.event, h, hnew, hbr]

/-- Claim C4, witness: concrete If cursors over Action conditions and
Action branches, one instance per phase outcome of the condition. -/
theorem C4_witness :
    State.event (cbConst .Running 2) 2
        (.IfState (.Action ()) (.Action ()) .Running (.ActionState () none)) (.Update 1) ()
      = some ((.Running, 2),
          .IfState (.Action ()) (.Action ()) .Running (.ActionState () none), ())
    ∧ State.event (cbConst .Success 3) 2
        (.IfState (.Action ()) (.Action ()) .Running (.ActionState () none)) (.Update 1) ()
      = some ((.Success, 3),
          .IfState (.Action ()) (.Action ()) .Success (.ActionState () none), ())
    ∧ State.event (cbConst .Failure 4) 2
        (.IfState (.Action ()) (.Action ()) .Running (.ActionState () none)) (.Update 1) ()
      = some ((.Failure, 4),
          .IfState (.Action ()) (.Action ()) .Failure (.ActionState () none), ()) := by
  refine ⟨?_, ?_, ?_⟩
  · exact (C4_if_running_branches (cbConst .Running 2) 1 (.Action ()) (.Action ())
      (.ActionState () none) (.Update 1) ()).1 2 (.ActionState () none) () rfl
  · exact (C4_if_running_branches (cbConst .Success 3) 1 (.Action ()) (.Action ())
      (.ActionState () none) (.Update 1) ()).2.1 3 (.ActionState () none) ()
      (.ActionState () none) (.Success, 3) (.ActionState () none) () rfl rfl rfl
  · exact (C4_if_running_branches (cbConst .Failure 4) 1 (.Action ()) (.Action ())
      (.ActionState () none) (.Update 1) ()).2.2 4 (.ActionState () none) ()
      (.ActionState () none) (.Failure, 4) (.ActionState () none) () rfl rfl rfl

/-- Claim C5: in the After arm, a child Success exactly at the frontier
with leftover strictly below the running minimum advances the frontier
and tightens the minimum; a Success elsewhere, or at the frontier
without the strict ordering, fails the node with the smaller of the two
compared deltas; a child Failure fails the node with that branch dt;
when the frontier reaches the list length the node returns (Success,
minimum dt).  Concretely, a fresh After([Wait 1, Wait 2]) stepped with
dt = 3 returns (Success, 1), and the same step on a fresh
After([Wait 2, Wait 1]) returns (Failure, 1). -/
theorem C5_after_semantics {A S σ : Type} (f : Callback A S σ) (k : ℕ) (g : σ) :
    (∀ (evt : EvtFun A S σ) e i minDt j c cs ndt c' g',
        evt c e g = some ((.Success, ndt), c', g') → i = j → ndt < minDt →
        afterLoop evt e i minDt j (c :: cs) g
          = (afterLoop evt e (i + 1) ndt (j + 1) cs g').map
              (fun r => (r.1, r.2.1, r.2.2.1, c' :: r.2.2.2.1, r.2.2.2.2)))
    ∧ (∀ (evt : EvtFun A S σ) e i minDt j c cs ndt c' g',
        evt c e g = some ((.Success, ndt), c', g') → ¬(i = j ∧ ndt < minDt) →
        afterLoop evt e i minDt j (c :: cs) g
          = some (some (.Failure, min minDt ndt), i, minDt, c' :: cs, g'))
    ∧ (∀ (evt : EvtFun A S σ) e i minDt j c cs ndt c' g',
        evt c e g = some ((.Failure, ndt), c', g') →
        afterLoop evt e i minDt j (c :: cs) g
          = some (some (.Failure, ndt), i, minDt, c' :: cs, g'))
    ∧ (∀ e i cs i' m rest g',
        afterLoop (fun s' e' g0 => State.event f k s' e' g0) e i f64MAX i
            (List.drop i cs) g = some (none, i', m, rest, g') →
        i' = cs.length →
        State.event f (k + 1) (.AfterState i cs) e g
          = some ((.Success, m), .AfterState i' (List.take i cs ++ rest), g'))
    ∧ State.new (A := A) (S := S) (.After [.Wait 1, .Wait 2])
        = some (.AfterState 0 [.WaitState 1 0, .WaitState 2 0])
    ∧ State.new (A := A) (S := S) (.After [.Wait 2, .Wait 1])
        = some (.AfterState 0 [.WaitState 2 0, .WaitState 1 0])
    ∧ State.event f 2 (.AfterState 0 [.WaitState 1 0, .WaitState 2 0]) (.Update 3) g
        = some ((.Success, 1), .AfterState 2 [.WaitState 1 1, .WaitState 2 2], g)
    ∧ State.event f 2 (.AfterState 0 [.WaitState 2 0, .WaitState 1 0]) (.Update 3) g
        = some ((.Failure, 1), .AfterState 1 [.WaitState 2 2, .WaitState 1 1], g) := by
  refine ⟨?_, ?_, ?_, ?_, rfl, rfl, ?_, ?_⟩
  · intro evt e i minDt j c cs ndt c' g' h heq hlt
    simp only [afterLoop, h]
    rw [if_pos ⟨heq, hlt⟩]
    cases hres : afterLoop evt e (i + 1) ndt (j + 1) cs g' with
    | none => simp
    | some r => obtain ⟨r1, r2, r3, r4, r5⟩ := r; simp
  · intro evt e i minDt j c cs ndt c' g' h hn
    simp only [afterLoop, h]
    rw [if_neg hn]
  · intro evt e i minDt j c cs ndt c' g' h
    simp only [afterLoop, h]
  · intro e i cs i' m rest g' h hi
    simp only [State.event, h]
    rw [if_pos hi]
  · norm_num [State.event, afterLoop, Event.upd, f64MAX]
  · norm_num [State.event, afterLoop, Event.upd, f64MAX]

/-- Claim C5, witness: concrete instances of the frontier-advance,
ordering-violation, failure and completion cases over Action children. -/
theorem C5_witness :
    (afterLoop (fun s' e' g0 => State.event (cbConst .Success 3) 1 s' e' g0) .Other 0 5 0
        [.ActionState () none] ()
      = (afterLoop (fun s' e' g0 => State.event (cbConst .Success 3) 1 s' e' g0) .Other 1 3 1
          [] ()).map
          (fun r => (r.1, r.2.1, r.2.2.1, State.ActionState () none :: r.2.2.2.1,
            r.2.2.2.2)))
    ∧ (afterLoop (fun s' e' g0 => State.event (cbConst .Success 3) 1 s' e' g0) .Other 0 2 0
        [.ActionState () none] ()
      = some (some (.Failure, min 2 3), 0, 2, [.ActionState () none], ()))
    ∧ (afterLoop (fun s' e' g0 => State.event (cbConst .Failure 4) 1 s' e' g0) .Other 0 2 0
        [.ActionState () none] ()
      = some (some (.Failure, 4), 0, 2, [.ActionState () none], ()))
    ∧ State.event (cbConst .Success 3) 2 (.AfterState 0 [.ActionState () none]) .Other ()
      = some ((.Success, 3),
          .AfterState 1 (List.take 0 [State.ActionState () none] ++ [.ActionState () none]),
          ()) := by
  refine ⟨?_, ?_, ?_, ?_⟩
  · exact (C5_after_semantics (cbConst .Success 3) 1 ()).1
      (fun s' e' g0 => State.event (cbConst .Success 3) 1 s' e' g0) .Other 0 5 0
      (.ActionState () none) [] 3 (.ActionState () none) () rfl rfl (by norm_num)
  · exact (C5_after_semantics (cbConst .Success 3) 1 ()).2.1
      (fun s' e' g0 => State.event (cbConst .Success 3) 1 s' e' g0) .Other 0 2 0
      (.ActionState () none) [] 3 (.ActionState () none) () rfl
      (by intro hx; exact absurd hx.2 (by norm_num))
  · exact (C5_after_semantics (cbConst .Failure 4) 1 ()).2.2.1
      (fun s' e' g0 => State.event (cbConst .Failure 4) 1 s' e' g0) .Other 0 2 0
      (.ActionState () none) [] 4 (.ActionState () none) () rfl
  · exact (C5_after_semantics (cbConst .Success 3) 1 ()).2.2.2.1 .Other 0
      [.ActionState () none] 1 3 [.ActionState () none] ()
      (by norm_num [afterLoop, State.event, Event.upd, cbConst, f64MAX]) rfl

/-- Construction mapped over a list succeeds when construction succeeds
on every member. -/
theorem newList_isSome_of_forall {A S : Type} (l : List (Behavior A))
    (h : ∀ b ∈ l, (State.new (S := S) b).isSome) :
    (State.newList (S := S) l).isSome := by
  induction l with
  | nil => simp [State.newList]
  | cons b bs ih =>
      obtain ⟨s, hs⟩ := Option.isSome_iff_exists.mp (h b (List.mem_cons_self b bs))
      obtain ⟨ss, hss⟩ := Option.isSome_iff_exists.mp
        (ih (fun x hx => h x (List.mem_cons_of_mem b hx)))
      simp [State.newList, hs, hss]

/-- Claim C9: when every Select, Sequence and While-body children list
in the Behavior is non-empty, cursor construction never hits an
out-of-bounds index — the error branch of the Option-returning
embedding of State::new is unreachable and construction yields a
cursor. -/
theorem C9_new_no_out_of_bounds {A S : Type} (b : Behavior A)
    (hb : Behavior.wfComposites b) : (State.new (S := S) b).isSome := by
  induction hb with
  | action a => simp [State.new]
  | fail _ ih =>
      obtain ⟨s, hs⟩ := Option.isSome_iff_exists.mp ih
      simp [State.new, hs]
  | alwaysSucceed _ ih =>
      obtain ⟨s, hs⟩ := Option.isSome_iff_exists.mp ih
      simp [State.new, hs]
  | wait d => simp [State.new]
  | waitForever => simp [State.new]
  | ifb _ _ _ ihc _ _ =>
      obtain ⟨s, hs⟩ := Option.isSome_iff_exists.mp ihc
      simp [State.new, hs]
  | select hne hall ih =>
      rename_i l
      cases l with
      | nil => exact absurd rfl hne
      | cons b0 bs =>
          obtain ⟨s, hs⟩ := Option.isSome_iff_exists.mp
            (ih b0 (List.mem_cons_self b0 bs))
          simp [State.new, hs]
  | seq hne hall ih =>
      rename_i l
      cases l with
      | nil => exact absurd rfl hne
      | cons b0 bs =>
          obtain ⟨s, hs⟩ := Option.isSome_iff_exists.mp
            (ih b0 (List.mem_cons_self b0 bs))
          simp [State.new, hs]
  | whileb hcw hne hall ihc ih =>
      rename_i c0 l
      cases l with
      | nil => exact absurd rfl hne
      | cons b0 bs =>
          obtain ⟨cc, hcc⟩ := Option.isSome_iff_exists.mp ihc
          obtain ⟨s, hs⟩ := Option.isSome_iff_exists.mp
            (ih b0 (List.mem_cons_self b0 bs))
          simp [State.new, hcc, hs]
  | whenAll hall ih =>
      rename_i l
      obtain ⟨cs, hcs⟩ := Option.isSome_iff_exists.mp (newList_isSome_of_forall l ih)
      simp [State.new, hcs]
  | whenAny hall ih =>
      rename_i l
      obtain ⟨cs, hcs⟩ := Option.isSome_iff_exists.mp (newList_isSome_of_forall l ih)
      simp [State.new, hcs]
  | after hall ih =>
      rename_i l
      obtain ⟨cs, hcs⟩ := Option.isSome_iff_exists.mp (newList_isSome_of_forall l ih)
      simp [State.new, hcs]

/-- Claim C9, witness: a concrete non-empty Sequence satisfies the
precondition and its construction succeeds. -/
theorem C9_witness :
    Behavior.wfComposites (Behavior.Sequence [Behavior.Action ()])
    ∧ (State.new (S := Unit) (.Sequence [.Action ()])).isSome := by
  have hw : Behavior.wfComposites (Behavior.Sequence [Behavior.Action ()]) :=
    .seq (by simp) (by
      intro b hb
      simp only [List.mem_singleton] at hb
      subst hb
      exact .action ())
  exact ⟨hw, C9_new_no_out_of_bounds _ hw⟩

end Bonsai
